import Mathlib

/-!
Shallow embedding of the translation relay server in `src/server/index.js`
(carsonkims/dental-translator-web), covering the `/translate` request
dispatcher, the Gemini refinement adapter, the static language table and
the MyMemory detection/translation extraction logic.

External HTTP calls are modelled by oracle values (`ProviderEnv`) that fix
what each provider would answer on this request; the handler additionally
returns the list of provider calls it performed, so that claims of the
form "provider X is (never) invoked with argument Y" are statable.
-/

namespace DentalRelay

/-- JavaScript values that can appear in a JSON request-body field. -/
inductive JsVal where
  | str (s : String)
  | boolean (b : Bool)
  | num (n : Int)
  | null
deriving DecidableEq, Repr

/-- JavaScript truthiness of a value (`if (v)`). -/
def JsVal.truthy : JsVal → Bool
  | .str s => s != ""
  | .boolean b => b
  | .num n => n != 0
  | .null => false

/-- JavaScript string coercion `String(v)`, as applied by template literals
and `encodeURIComponent`. -/
def JsVal.toJsString : JsVal → String
  | .str s => s
  | .boolean b => if b then "true" else "false"
  | .num n => toString n
  | .null => "null"

/-- Truthiness of `req.body.f` where the field may be absent
(absent gives `undefined`, which is falsy). -/
def fieldTruthy : Option JsVal → Bool
  | none => false
  | some v => v.truthy

/-- The fields of the JSON body of a `POST /translate` request that the
handler reads (`const { text, target, source } = req.body;` plus
`req.body.refine`). `none` means the field is absent. -/
structure RequestBody where
  text : Option JsVal
  target : Option JsVal
  source : Option JsVal
  refine : Option JsVal
deriving DecidableEq, Repr

/-- Process configuration: `process.env.GOOGLE_GEMINI_KEY` and
`process.env.AI_PROVIDER` (each possibly unset). -/
structure Config where
  googleGeminiKey : Option String
  aiProviderEnv : Option String
deriving DecidableEq, Repr

/-- `const AI_PROVIDER = process.env.AI_PROVIDER || "gemini";` -/
def Config.aiProvider (cfg : Config) : String :=
  match cfg.aiProviderEnv with
  | some s => if s != "" then s else "gemini"
  | none => "gemini"

/-- Truthiness of `GOOGLE_GEMINI_KEY` (the guard `if (!GOOGLE_GEMINI_KEY)`). -/
def Config.geminiKeyTruthy (cfg : Config) : Bool :=
  match cfg.googleGeminiKey with
  | some s => s != ""
  | none => false

/-- Outcome of the Gemini `generateContent` fetch, summarised at the points
the adapter inspects it: the fetch (or the body read) threw -- which is also
how the 10-second abort timeout surfaces --, the response was non-ok, or it
was ok and `data.candidates?.[0]?.content?.parts?.[0]?.text` extracted to
the given optional string (`none` when the shape is unexpected). -/
inductive GeminiOutcome where
  | throws
  | httpError (status : Nat)
  | ok (extracted : Option String)
deriving DecidableEq, Repr

/-- Result of a MyMemory fetch plus `.json()`: either the whole call threw
(with the error message), or it produced a parsed body. -/
inductive FetchResult (α : Type) where
  | throws (msg : String)
  | ok (a : α)
deriving DecidableEq, Repr

/-- Whether a fetch result is the throwing case. -/
def FetchResult.isThrow {α : Type} : FetchResult α → Bool
  | .throws _ => true
  | .ok _ => false

/-- The fields of a parsed MyMemory JSON body that the handler reads,
each already taken through its optional chain:
`responseDetails`, `responseMetadata?.detectedLanguage`,
`responseData?.translatedText`. `none` means absent. -/
structure MyMemoryResponse where
  responseDetails : Option String
  detectedLanguage : Option String
  translatedText : Option String
deriving DecidableEq, Repr

/-- Fixed answers of the external providers for the current request. -/
structure ProviderEnv where
  gemini : GeminiOutcome
  detect : FetchResult MyMemoryResponse
  translate : FetchResult MyMemoryResponse
deriving DecidableEq, Repr

/-- A record of one outgoing provider call: the Gemini refinement call
(with the adapter arguments embedded in its prompt), the MyMemory
detection call (query text; the language pair is the fixed probe
`en|en`), or the MyMemory translation call (query text and resolved
language pair). Query texts are recorded before percent-encoding. -/
inductive ProviderCall where
  | gemini (text language : String)
  | detect (q : String)
  | translate (q : String) (sourceLang targetLang : String)
deriving DecidableEq, Repr

/-- JavaScript `String.prototype.trim()`: strip leading and trailing
whitespace characters. -/
def jsTrim (s : String) : String :=
  ⟨((s.data.dropWhile Char.isWhitespace).reverse.dropWhile Char.isWhitespace).reverse⟩

/-- `refineWithGemini(text, language)`: skip when no key is configured;
otherwise call the provider and return the extracted candidate text
(trimmed), falling back to `text` on a thrown error, a non-ok status, or
a missing/empty extracted field (`refined = extracted || text` followed by
`refined.trim()`). Also returns the provider calls made. -/
def refineWithGemini (cfg : Config) (env : ProviderEnv) (text language : String) :
    String × List ProviderCall :=
  if !cfg.geminiKeyTruthy then
    (text, [])
  else
    match env.gemini with
    | .throws => (text, [.gemini text language])
    | .httpError _ => (text, [.gemini text language])
    | .ok extracted =>
        let refined :=
          match extracted with
          | some s => if s != "" then s else text
          | none => text
        (jsTrim refined, [.gemini text language])

/-- `refineOriginalText(text, language)`: dispatch to Gemini when
`AI_PROVIDER === "gemini"`, otherwise return the text unchanged. -/
def refineOriginalText (cfg : Config) (env : ProviderEnv) (text language : String) :
    String × List ProviderCall :=
  if cfg.aiProvider == "gemini" then refineWithGemini cfg env text language
  else (text, [])

/-- The static `languages` name-to-code table from the handler. -/
def languages : List (String × String) :=
  [("Spanish", "es"), ("French", "fr"), ("Mandarin", "zh-CN"), ("German", "de"),
   ("Portuguese", "pt"), ("Italian", "it"), ("Japanese", "ja"), ("English", "en")]

/-- The property names every plain object literal inherits from
`Object.prototype` (Node): looking any of these up on `languages` yields a
truthy non-string value (a function, or the prototype object through the
`__proto__` accessor) rather than `undefined`. -/
def objectPrototypeProps : List String :=
  ["constructor", "hasOwnProperty", "isPrototypeOf", "propertyIsEnumerable",
   "toLocaleString", "toString", "valueOf", "__defineGetter__",
   "__defineSetter__", "__lookupGetter__", "__lookupSetter__", "__proto__"]

/-- A value produced by the JS lookup `languages[name]`: an own property
of the object literal (a code string from the table), or a member
inherited from `Object.prototype` (always truthy). -/
inductive JsPropVal where
  | ownCode (code : String)
  | inherited (name : String)
deriving DecidableEq, Repr

/-- `languages[name]`: full JS property lookup on the object literal --
own properties first, then the prototype chain (`Object.prototype`);
`none` plays `undefined`. -/
def lookupLanguage (name : String) : Option JsPropVal :=
  match languages.find? (fun p => p.1 == name) with
  | some p => some (JsPropVal.ownCode p.2)
  | none =>
      if name ∈ objectPrototypeProps then some (JsPropVal.inherited name)
      else none

/-- String coercion of an inherited `Object.prototype` member, as the URL
template literal renders it under V8: the prototype object for
`__proto__`, the function source text for the others. -/
def inheritedToJsString (name : String) : String :=
  if name == "__proto__" then "[object Object]"
  else "function " ++ name ++ "() \x7b [native code] \x7d"

/-- `languages[v] || v`: resolve a request-body value to the string used
in the language pair. An own table code is truthy (non-empty) and wins;
an inherited prototype member is truthy and wins (string-coerced later in
the URL template); otherwise the lookup is `undefined` and the original
value passes through (string-coerced). -/
def resolveLangVal (v : JsVal) : String :=
  match lookupLanguage v.toJsString with
  | some (.ownCode code) => if code != "" then code else v.toJsString
  | some (.inherited name) => inheritedToJsString name
  | none => v.toJsString

/-- The regex test `detectData.responseDetails?.match(/Language pair not
supported/)`: true when `responseDetails` is present and contains the
phrase as a substring. -/
def reportsUnsupportedPair (d : MyMemoryResponse) : Bool :=
  match d.responseDetails with
  | some details => (details.splitOn "Language pair not supported").length > 1
  | none => false

/-- Source-code extraction from a detection response:
`responseDetails?.match(...) ? "en" :
 responseMetadata?.detectedLanguage || "en"`. -/
def detectedSourceCode (d : MyMemoryResponse) : String :=
  if reportsUnsupportedPair d then "en"
  else
    match d.detectedLanguage with
    | some s => if s != "" then s else "en"
    | none => "en"

/-- Translation extraction:
`data.responseData?.translatedText || "Error: no translation"`. -/
def extractTranslation (d : MyMemoryResponse) : String :=
  match d.translatedText with
  | some s => if s != "" then s else "Error: no translation"
  | none => "Error: no translation"

/-- The JSON body of the handler's HTTP response. -/
inductive ResponseBody where
  | errorBody (error : String)
  | translationBody (translation : String)
deriving DecidableEq, Repr

/-- An HTTP response of the `/translate` handler: status code and body. -/
structure HandlerResult where
  status : Nat
  body : ResponseBody
deriving DecidableEq, Repr

/-- `const refineRequested = req.body.refine !== false;`
(strict inequality against the boolean `false`). -/
def refineRequested (body : RequestBody) : Bool :=
  body.refine != some (JsVal.boolean false)

/-- The translation fetch and response extraction (the tail of the
handler): returns 500 with the error message when the fetch throws
(caught by the surrounding `try`), otherwise 200 with the extracted
translation. -/
def runTranslation (env : ProviderEnv) (refinedText sourceLangCode targetLang : String)
    (callsSoFar : List ProviderCall) : HandlerResult × List ProviderCall :=
  match env.translate with
  | .throws msg =>
      (⟨500, .errorBody ("Translation failed: " ++ msg)⟩,
        callsSoFar ++ [.translate refinedText sourceLangCode targetLang])
  | .ok d =>
      (⟨200, .translationBody (extractTranslation d)⟩,
        callsSoFar ++ [.translate refinedText sourceLangCode targetLang])

/-- The string value actually used for `text` downstream of validation
(the raw body value, as stringified at the template-literal and
`encodeURIComponent` coercion points). -/
def requestTextStr (body : RequestBody) : String :=
  (body.text.getD JsVal.null).toJsString

/-- The `language` argument handed to refinement:
`source || "English"` (string-coerced at the prompt interpolation). -/
def requestLanguageArg (body : RequestBody) : String :=
  if fieldTruthy body.source then (body.source.getD JsVal.null).toJsString
  else "English"

/-- The refinement stage of the handler: `refinedText` starts as `text`
and is replaced by the refinement result only when the provider toggle is
not "none" and the request did not set `refine` strictly to `false`. -/
def refineStage (cfg : Config) (env : ProviderEnv) (body : RequestBody) :
    String × List ProviderCall :=
  if cfg.aiProvider != "none" && refineRequested body then
    refineOriginalText cfg env (requestTextStr body) (requestLanguageArg body)
  else (requestTextStr body, [])

/-- Language resolution and the detection/translation tail of the handler,
run with the (possibly refined) text and the provider calls made so far:
resolve `target`, resolve `source` through the table when truthy or else
detect it with a MyMemory `en|en` probe on the refined text, then
translate. -/
def dispatchWithRefined (env : ProviderEnv) (body : RequestBody)
    (refinedText : String) (refineCalls : List ProviderCall) :
    HandlerResult × List ProviderCall :=
  if fieldTruthy body.source then
    runTranslation env refinedText (resolveLangVal (body.source.getD JsVal.null))
      (resolveLangVal (body.target.getD JsVal.null)) refineCalls
  else
    match env.detect with
    | .throws msg =>
        (⟨500, .errorBody ("Translation failed: " ++ msg)⟩,
          refineCalls ++ [.detect refinedText])
    | .ok d =>
        runTranslation env refinedText (detectedSourceCode d)
          (resolveLangVal (body.target.getD JsVal.null))
          (refineCalls ++ [.detect refinedText])

/-- The `POST /translate` handler: validation, conditional refinement,
language resolution (with detection when no truthy `source` is given),
translation, and response construction, together with the list of
provider calls performed, in order. -/
def translateHandler (cfg : Config) (env : ProviderEnv) (body : RequestBody) :
    HandlerResult × List ProviderCall :=
  if !fieldTruthy body.text || !fieldTruthy body.target then
    (⟨400, .errorBody "Missing text or target"⟩, [])
  else
    let refineStep := refineStage cfg env body
    dispatchWithRefined env body refineStep.1 refineStep.2

/-! ### Helper lemmas about the handler stages -/

theorem translateHandler_invalid (cfg : Config) (env : ProviderEnv) (body : RequestBody)
    (h : fieldTruthy body.text = false ∨ fieldTruthy body.target = false) :
    translateHandler cfg env body =
      (⟨400, ResponseBody.errorBody "Missing text or target"⟩, []) := by
  unfold translateHandler
  rcases h with h | h <;> simp [h]

theorem translateHandler_valid (cfg : Config) (env : ProviderEnv) (body : RequestBody)
    (ht : fieldTruthy body.text = true) (htg : fieldTruthy body.target = true) :
    translateHandler cfg env body =
      dispatchWithRefined env body (refineStage cfg env body).1 (refineStage cfg env body).2 := by
  unfold translateHandler
  simp [ht, htg]

theorem runTranslation_log (env : ProviderEnv) (r src tgt : String) (calls : List ProviderCall) :
    (runTranslation env r src tgt calls).2 = calls ++ [ProviderCall.translate r src tgt] := by
  unfold runTranslation
  cases env.translate <;> rfl

theorem runTranslation_fst (env : ProviderEnv) (r src tgt : String)
    (calls calls' : List ProviderCall) :
    (runTranslation env r src tgt calls).1 = (runTranslation env r src tgt calls').1 := by
  unfold runTranslation
  cases env.translate <;> rfl

theorem runTranslation_ok (env : ProviderEnv) (r src tgt : String) (calls : List ProviderCall)
    (d : MyMemoryResponse) (h : env.translate = FetchResult.ok d) :
    (runTranslation env r src tgt calls).1 =
      ⟨200, ResponseBody.translationBody (extractTranslation d)⟩ := by
  unfold runTranslation
  rw [h]

theorem dispatchWithRefined_log (env : ProviderEnv) (body : RequestBody) (r : String)
    (calls : List ProviderCall) :
    ∃ rest, (dispatchWithRefined env body r calls).2 = calls ++ rest ∧
      (∀ t l, ProviderCall.gemini t l ∉ rest) ∧
      (∀ q, ProviderCall.detect q ∈ rest → q = r) ∧
      (∀ q src tgt, ProviderCall.translate q src tgt ∈ rest → q = r) := by
  unfold dispatchWithRefined
  by_cases hs : fieldTruthy body.source = true
  · rw [if_pos hs, runTranslation_log]
    refine ⟨_, rfl, by simp, by simp, ?_⟩
    intro q src tgt hmem
    rw [List.mem_singleton] at hmem
    injection hmem
  · rw [if_neg hs]
    cases hd : env.detect with
    | throws msg =>
        refine ⟨[ProviderCall.detect r], rfl, by simp, ?_, by simp⟩
        intro q hmem
        rw [List.mem_singleton] at hmem
        injection hmem
    | ok d =>
        rw [runTranslation_log, List.append_assoc]
        refine ⟨_, rfl, by simp, ?_, ?_⟩
        · intro q hmem
          rcases List.mem_append.mp hmem with hmem | hmem
          · rw [List.mem_singleton] at hmem
            injection hmem
          · rw [List.mem_singleton] at hmem
            exact ProviderCall.noConfusion hmem
        · intro q src tgt hmem
          rcases List.mem_append.mp hmem with hmem | hmem
          · rw [List.mem_singleton] at hmem
            exact ProviderCall.noConfusion hmem
          · rw [List.mem_singleton] at hmem
            injection hmem

theorem dispatchWithRefined_fst (env : ProviderEnv) (body : RequestBody) (r : String)
    (calls calls' : List ProviderCall) :
    (dispatchWithRefined env body r calls).1 = (dispatchWithRefined env body r calls').1 := by
  unfold dispatchWithRefined
  by_cases hs : fieldTruthy body.source = true
  · rw [if_pos hs, if_pos hs]
    exact runTranslation_fst env r _ _ calls calls'
  · rw [if_neg hs, if_neg hs]
    cases hd : env.detect with
    | throws msg => rfl
    | ok d => exact runTranslation_fst env r _ _ _ _

theorem dispatchWithRefined_ok (env : ProviderEnv) (body : RequestBody) (r : String)
    (calls : List ProviderCall) (d : MyMemoryResponse)
    (htr : env.translate = FetchResult.ok d)
    (hreach : fieldTruthy body.source = true ∨ env.detect.isThrow = false) :
    (dispatchWithRefined env body r calls).1 =
      ⟨200, ResponseBody.translationBody (extractTranslation d)⟩ := by
  unfold dispatchWithRefined
  by_cases hs : fieldTruthy body.source = true
  · rw [if_pos hs]
    exact runTranslation_ok env r _ _ calls d htr
  · rw [if_neg hs]
    cases hd : env.detect with
    | throws msg =>
        rcases hreach with hreach | hreach
        · exact absurd hreach hs
        · rw [hd] at hreach
          simp [FetchResult.isThrow] at hreach
    | ok d₂ => exact runTranslation_ok env r _ _ _ d htr

theorem dispatchWithRefined_translate_mem (env : ProviderEnv) (body : RequestBody) (r : String)
    (calls : List ProviderCall)
    (hreach : fieldTruthy body.source = true ∨ env.detect.isThrow = false) :
    ∃ src tgt, ProviderCall.translate r src tgt ∈ (dispatchWithRefined env body r calls).2 := by
  unfold dispatchWithRefined
  by_cases hs : fieldTruthy body.source = true
  · rw [if_pos hs, runTranslation_log]
    exact ⟨resolveLangVal (body.source.getD JsVal.null),
      resolveLangVal (body.target.getD JsVal.null), by simp⟩
  · rw [if_neg hs]
    cases hd : env.detect with
    | throws msg =>
        rcases hreach with hreach | hreach
        · exact absurd hreach hs
        · rw [hd] at hreach
          simp [FetchResult.isThrow] at hreach
    | ok d =>
        rw [runTranslation_log]
        exact ⟨detectedSourceCode d, resolveLangVal (body.target.getD JsVal.null), by simp⟩

theorem dispatchWithRefined_detect (env : ProviderEnv) (body : RequestBody) (r : String)
    (calls : List ProviderCall) (d : MyMemoryResponse)
    (hs : fieldTruthy body.source = false) (hd : env.detect = FetchResult.ok d) :
    ProviderCall.detect r ∈ (dispatchWithRefined env body r calls).2 ∧
    ∀ q src tgt, ProviderCall.translate q src tgt ∈ (dispatchWithRefined env body r calls).2 →
      ProviderCall.translate q src tgt ∈ calls ∨ src = detectedSourceCode d := by
  unfold dispatchWithRefined
  rw [if_neg (by simp [hs]), hd, runTranslation_log, List.append_assoc]
  constructor
  · simp
  · intro q src tgt hmem
    rcases List.mem_append.mp hmem with hmem | hmem
    · exact Or.inl hmem
    · rcases List.mem_append.mp hmem with hmem | hmem
      · rw [List.mem_singleton] at hmem
        exact ProviderCall.noConfusion hmem
      · rw [List.mem_singleton] at hmem
        injection hmem with h₁ h₂ h₃
        exact Or.inr h₂

theorem refineStage_refine_false (cfg : Config) (env : ProviderEnv) (body : RequestBody)
    (h : body.refine = some (JsVal.boolean false)) :
    refineStage cfg env body = (requestTextStr body, []) := by
  unfold refineStage refineRequested
  simp [h]

theorem refineStage_calls (cfg : Config) (env : ProviderEnv) (body : RequestBody) :
    (refineStage cfg env body).2 = [] ∨
    (refineStage cfg env body).2 =
      [ProviderCall.gemini (requestTextStr body) (requestLanguageArg body)] := by
  unfold refineStage refineOriginalText refineWithGemini
  split_ifs <;> try exact Or.inl rfl
  cases env.gemini <;> exact Or.inr rfl

theorem refineStage_failure_fst (cfg : Config) (env : ProviderEnv) (body : RequestBody)
    (hg : env.gemini = GeminiOutcome.throws ∨ ∃ st, env.gemini = GeminiOutcome.httpError st) :
    (refineStage cfg env body).1 = requestTextStr body := by
  unfold refineStage refineOriginalText refineWithGemini
  rcases hg with hg | ⟨st, hg⟩ <;> rw [hg] <;> split_ifs <;> rfl

theorem refineStage_gemini_called (cfg : Config) (env : ProviderEnv) (body : RequestBody)
    (hp : cfg.aiProvider = "gemini") (hk : cfg.geminiKeyTruthy = true)
    (hr : refineRequested body = true) :
    (refineStage cfg env body).2 =
      [ProviderCall.gemini (requestTextStr body) (requestLanguageArg body)] := by
  unfold refineStage refineOriginalText refineWithGemini
  rw [if_pos (show (cfg.aiProvider != "none" && refineRequested body) = true by
        rw [hp, hr]; decide),
      if_pos (show (cfg.aiProvider == "gemini") = true by rw [hp]; decide),
      if_neg (show ¬(!cfg.geminiKeyTruthy) = true by rw [hk]; decide)]
  cases env.gemini <;> rfl

/-! ### The claims -/

/-- Claim C2: a `POST /translate` request in which the `text` field or the
`target` field is missing is answered with HTTP 400 and an error body, and
no refinement or translation provider call is made. -/
theorem missing_field_rejected_400 (cfg : Config) (env : ProviderEnv) (body : RequestBody)
    (h : body.text = none ∨ body.target = none) :
    translateHandler cfg env body =
      (⟨400, ResponseBody.errorBody "Missing text or target"⟩, []) := by
  apply translateHandler_invalid
  rcases h with h | h
  · exact Or.inl (by rw [h]; rfl)
  · exact Or.inr (by rw [h]; rfl)

/-- Witness for C2 at a concrete request with `target` missing. -/
theorem missing_field_rejected_400_witness :
    translateHandler ⟨some "k", none⟩
        ⟨GeminiOutcome.throws, FetchResult.ok ⟨none, none, none⟩,
          FetchResult.ok ⟨none, none, none⟩⟩
        ⟨some (JsVal.str "hello"), none, none, none⟩ =
      (⟨400, ResponseBody.errorBody "Missing text or target"⟩, []) :=
  missing_field_rejected_400 _ _ _ (Or.inr rfl)

/-- Claim C9: a request whose `text` or `target` field is present but falsy
(empty string, `false`, `0`, `null`) is rejected with 400 exactly as if the
field were absent: validation tests truthiness, not mere presence. -/
theorem falsy_field_rejected_400 (cfg : Config) (env : ProviderEnv) (body : RequestBody)
    (h : (∃ v, body.text = some v ∧ v.truthy = false) ∨
         (∃ v, body.target = some v ∧ v.truthy = false)) :
    translateHandler cfg env body =
      (⟨400, ResponseBody.errorBody "Missing text or target"⟩, []) := by
  apply translateHandler_invalid
  rcases h with ⟨v, hv, htv⟩ | ⟨v, hv, htv⟩
  · exact Or.inl (by rw [hv]; exact htv)
  · exact Or.inr (by rw [hv]; exact htv)

/-- Witness for C9 at a concrete request whose `text` is the empty string. -/
theorem falsy_field_rejected_400_witness :
    translateHandler ⟨some "k", none⟩
        ⟨GeminiOutcome.throws, FetchResult.ok ⟨none, none, none⟩,
          FetchResult.ok ⟨none, none, none⟩⟩
        ⟨some (JsVal.str ""), some (JsVal.str "Spanish"), none, none⟩ =
      (⟨400, ResponseBody.errorBody "Missing text or target"⟩, []) :=
  falsy_field_rejected_400 _ _ _ (Or.inl ⟨JsVal.str "", rfl, rfl⟩)

/-- Claim C8: when no Gemini credential is configured, the refinement
adapter returns the input text unchanged and performs no provider call,
for every input text and language (hence independently of the request's
`refine` flag, which the adapter does not consult). -/
theorem no_key_refine_returns_input (cfg : Config) (env : ProviderEnv) (text language : String)
    (h : cfg.geminiKeyTruthy = false) :
    refineWithGemini cfg env text language = (text, []) := by
  unfold refineWithGemini
  rw [h]
  rfl

/-- Witness for C8 at a concrete unconfigured environment. -/
theorem no_key_refine_returns_input_witness :
    refineWithGemini ⟨none, none⟩
        ⟨GeminiOutcome.ok (some "Polished text."), FetchResult.ok ⟨none, none, none⟩,
          FetchResult.ok ⟨none, none, none⟩⟩ "hello doctor" "English" =
      ("hello doctor", []) :=
  no_key_refine_returns_input _ _ _ _ rfl

/-- Claim C1: when the request's `refine` field is the boolean `false`,
the Gemini refinement provider is never invoked and every MyMemory call
(detection probe and translation) carries the original `text` verbatim;
in particular the translation call, whenever it is reached, is made with
the original text. -/
theorem refine_false_no_refinement_text_verbatim (cfg : Config) (env : ProviderEnv)
    (body : RequestBody) (s : String)
    (htext : body.text = some (JsVal.str s)) (hs : s ≠ "")
    (htg : fieldTruthy body.target = true)
    (hrefine : body.refine = some (JsVal.boolean false)) :
    (∀ t l, ProviderCall.gemini t l ∉ (translateHandler cfg env body).2) ∧
    (∀ q src tgt, ProviderCall.translate q src tgt ∈ (translateHandler cfg env body).2 →
      q = s) ∧
    (∀ q, ProviderCall.detect q ∈ (translateHandler cfg env body).2 → q = s) ∧
    ((fieldTruthy body.source = true ∨ env.detect.isThrow = false) →
      ∃ src tgt, ProviderCall.translate s src tgt ∈ (translateHandler cfg env body).2) := by
  have ht : fieldTruthy body.text = true := by
    rw [htext]
    simp [fieldTruthy, JsVal.truthy, hs]
  have hts : requestTextStr body = s := by
    unfold requestTextStr
    rw [htext]
    rfl
  have hh : translateHandler cfg env body = dispatchWithRefined env body s [] := by
    rw [translateHandler_valid cfg env body ht htg,
      refineStage_refine_false cfg env body hrefine, hts]
  rw [hh]
  obtain ⟨rest, hlog, hgem, hdet, htrans⟩ := dispatchWithRefined_log env body s []
  rw [List.nil_append] at hlog
  refine ⟨?_, ?_, ?_, ?_⟩
  · intro t l
    rw [hlog]
    exact hgem t l
  · intro q src tgt hmem
    rw [hlog] at hmem
    exact htrans q src tgt hmem
  · intro q hmem
    rw [hlog] at hmem
    exact hdet q hmem
  · intro hreach
    exact dispatchWithRefined_translate_mem env body s [] hreach

/-- Witness for C1 at a concrete `refine: false` request: no Gemini call,
and the translation call carries the original text. -/
theorem refine_false_witness :
    (∀ t l, ProviderCall.gemini t l ∉
      (translateHandler ⟨some "k", none⟩
        ⟨GeminiOutcome.ok (some "X"), FetchResult.ok ⟨none, some "es", none⟩,
          FetchResult.ok ⟨none, none, some "hi"⟩⟩
        ⟨some (JsVal.str "hola"), some (JsVal.str "English"), none,
          some (JsVal.boolean false)⟩).2) ∧
    (∃ src tgt, ProviderCall.translate "hola" src tgt ∈
      (translateHandler ⟨some "k", none⟩
        ⟨GeminiOutcome.ok (some "X"), FetchResult.ok ⟨none, some "es", none⟩,
          FetchResult.ok ⟨none, none, some "hi"⟩⟩
        ⟨some (JsVal.str "hola"), some (JsVal.str "English"), none,
          some (JsVal.boolean false)⟩).2) := by
  have h := refine_false_no_refinement_text_verbatim ⟨some "k", none⟩
    ⟨GeminiOutcome.ok (some "X"), FetchResult.ok ⟨none, some "es", none⟩,
      FetchResult.ok ⟨none, none, some "hi"⟩⟩
    ⟨some (JsVal.str "hola"), some (JsVal.str "English"), none,
      some (JsVal.boolean false)⟩ "hola" rfl (by decide) (by decide) rfl
  exact ⟨h.1, h.2.2.2 (Or.inr rfl)⟩

/-- Claim C3: when a validated request reaches the translation call and
the translation provider's JSON body lacks `responseData.translatedText`,
the handler responds 200 with `translation` equal to the literal
"Error: no translation". -/
theorem missing_translated_text_marker (cfg : Config) (env : ProviderEnv)
    (body : RequestBody) (d : MyMemoryResponse)
    (ht : fieldTruthy body.text = true) (htg : fieldTruthy body.target = true)
    (hreach : fieldTruthy body.source = true ∨ env.detect.isThrow = false)
    (htr : env.translate = FetchResult.ok d) (hmiss : d.translatedText = none) :
    (translateHandler cfg env body).1 =
      ⟨200, ResponseBody.translationBody "Error: no translation"⟩ := by
  have hx : extractTranslation d = "Error: no translation" := by
    unfold extractTranslation
    rw [hmiss]
  rw [translateHandler_valid cfg env body ht htg,
    dispatchWithRefined_ok env body _ _ d htr hreach, hx]

/-- Witness for C3 at a concrete request whose translation response has no
`translatedText`. -/
theorem missing_translated_text_marker_witness :
    (translateHandler ⟨none, none⟩
        ⟨GeminiOutcome.throws, FetchResult.ok ⟨none, none, none⟩,
          FetchResult.ok ⟨some "ok", none, none⟩⟩
        ⟨some (JsVal.str "hola"), some (JsVal.str "English"),
          some (JsVal.str "Spanish"), none⟩).1 =
      ⟨200, ResponseBody.translationBody "Error: no translation"⟩ :=
  missing_translated_text_marker _ _ _ ⟨some "ok", none, none⟩ (by decide) (by decide)
    (Or.inl rfl) rfl rfl

/-- Claim C6: if the Gemini call fails -- it throws (which is also how the
10-second abort timeout surfaces) or answers with a non-success status --
a validated request still proceeds exactly as if refinement had been
skipped: the response equals that of the identical request with
`refine: false`, and every translation call uses the original text. -/
theorem refinement_failure_not_fatal (cfg : Config) (env : ProviderEnv) (body : RequestBody)
    (ht : fieldTruthy body.text = true) (htg : fieldTruthy body.target = true)
    (hg : env.gemini = GeminiOutcome.throws ∨
      ∃ st, env.gemini = GeminiOutcome.httpError st) :
    (translateHandler cfg env body).1 =
      (translateHandler cfg env { body with refine := some (JsVal.boolean false) }).1 ∧
    (∀ q src tgt, ProviderCall.translate q src tgt ∈ (translateHandler cfg env body).2 →
      q = requestTextStr body) := by
  have hr1 : (refineStage cfg env body).1 = requestTextStr body :=
    refineStage_failure_fst cfg env body hg
  constructor
  · rw [translateHandler_valid cfg env body ht htg,
      translateHandler_valid cfg env { body with refine := some (JsVal.boolean false) } ht htg,
      refineStage_refine_false cfg env { body with refine := some (JsVal.boolean false) } rfl,
      hr1]
    exact dispatchWithRefined_fst env body (requestTextStr body) _ _
  · intro q src tgt hmem
    rw [translateHandler_valid cfg env body ht htg] at hmem
    obtain ⟨rest, hlog, hgem, hdet, htrans⟩ :=
      dispatchWithRefined_log env body (refineStage cfg env body).1 (refineStage cfg env body).2
    rw [hlog] at hmem
    rcases List.mem_append.mp hmem with hmem | hmem
    · rcases refineStage_calls cfg env body with hc | hc <;> rw [hc] at hmem
      · exact absurd hmem (List.not_mem_nil _)
      · rw [List.mem_singleton] at hmem
        exact ProviderCall.noConfusion hmem
    · rw [← hr1]
      exact htrans q src tgt hmem

/-- Witness for C6: a concrete request whose Gemini call throws still gets
the same 200 response as with `refine: false`, translating the original
text. -/
theorem refinement_failure_not_fatal_witness :
    (translateHandler ⟨some "k", none⟩
        ⟨GeminiOutcome.throws, FetchResult.ok ⟨none, some "es", none⟩,
          FetchResult.ok ⟨none, none, some "hello"⟩⟩
        ⟨some (JsVal.str "hola"), some (JsVal.str "English"), none, none⟩).1 =
      (translateHandler ⟨some "k", none⟩
        ⟨GeminiOutcome.throws, FetchResult.ok ⟨none, some "es", none⟩,
          FetchResult.ok ⟨none, none, some "hello"⟩⟩
        ⟨some (JsVal.str "hola"), some (JsVal.str "English"), none,
          some (JsVal.boolean false)⟩).1 ∧
    (∀ q src tgt, ProviderCall.translate q src tgt ∈
        (translateHandler ⟨some "k", none⟩
          ⟨GeminiOutcome.throws, FetchResult.ok ⟨none, some "es", none⟩,
            FetchResult.ok ⟨none, none, some "hello"⟩⟩
          ⟨some (JsVal.str "hola"), some (JsVal.str "English"), none, none⟩).2 →
      q = "hola") :=
  refinement_failure_not_fatal ⟨some "k", none⟩
    ⟨GeminiOutcome.throws, FetchResult.ok ⟨none, some "es", none⟩,
      FetchResult.ok ⟨none, none, some "hello"⟩⟩
    ⟨some (JsVal.str "hola"), some (JsVal.str "English"), none, none⟩
    (by decide) (by decide) (Or.inl rfl)

/-- Claim C10: with the Gemini provider selected and a credential present,
the refinement provider is invoked if and only if the request's `refine`
field differs from the strict boolean `false`; an absent `refine`, the
string "false", the number 0 or null all count as refinement requested. -/
theorem refine_gate_strict_false (cfg : Config) (env : ProviderEnv) (body : RequestBody)
    (ht : fieldTruthy body.text = true) (htg : fieldTruthy body.target = true)
    (hp : cfg.aiProvider = "gemini") (hk : cfg.geminiKeyTruthy = true) :
    (∃ t l, ProviderCall.gemini t l ∈ (translateHandler cfg env body).2) ↔
      body.refine ≠ some (JsVal.boolean false) := by
  rw [translateHandler_valid cfg env body ht htg]
  obtain ⟨rest, hlog, hgem, hdet, htrans⟩ :=
    dispatchWithRefined_log env body (refineStage cfg env body).1 (refineStage cfg env body).2
  rw [hlog]
  constructor
  · rintro ⟨t, l, hmem⟩ hfalse
    rcases List.mem_append.mp hmem with hmem | hmem
    · rw [refineStage_refine_false cfg env body hfalse] at hmem
      simp at hmem
    · exact hgem t l hmem
  · intro hne
    refine ⟨requestTextStr body, requestLanguageArg body, ?_⟩
    rw [refineStage_gemini_called cfg env body hp hk ?_]
    · exact List.mem_append_left _ (List.mem_singleton.mpr rfl)
    · simp only [refineRequested, bne_iff_ne, ne_eq]
      exact hne

/-- Witness for C10: `refine` set to the string "false" still triggers the
Gemini call. -/
theorem refine_gate_strict_false_witness :
    ((∃ t l, ProviderCall.gemini t l ∈
      (translateHandler ⟨some "k", none⟩
        ⟨GeminiOutcome.ok (some "Hola."), FetchResult.ok ⟨none, some "es", none⟩,
          FetchResult.ok ⟨none, none, some "hello"⟩⟩
        ⟨some (JsVal.str "hola"), some (JsVal.str "English"), none,
          some (JsVal.str "false")⟩).2) ↔
      some (JsVal.str "false") ≠ some (JsVal.boolean false)) :=
  refine_gate_strict_false ⟨some "k", none⟩
    ⟨GeminiOutcome.ok (some "Hola."), FetchResult.ok ⟨none, some "es", none⟩,
      FetchResult.ok ⟨none, none, some "hello"⟩⟩
    ⟨some (JsVal.str "hola"), some (JsVal.str "English"), none,
      some (JsVal.str "false")⟩
    (by decide) (by decide) rfl rfl

/-- Counterexample to C7 as stated: the detection response contains a
detected-language field whose value is the empty string (and reports no
unsupported pair), yet the translation call uses the fallback "en", not
that detected value. -/
theorem detection_empty_language_counterexample :
    (translateHandler ⟨none, some "none"⟩
        ⟨GeminiOutcome.throws, FetchResult.ok ⟨none, some "", none⟩,
          FetchResult.ok ⟨none, none, some "x"⟩⟩
        ⟨some (JsVal.str "hola"), some (JsVal.str "English"), none, none⟩).2 =
      [ProviderCall.detect "hola", ProviderCall.translate "hola" "en" "en"] ∧
    ("en" : String) ≠ "" := by decide

/-- Claim C7 (amended): for a validated request without a `source` field
and a successful detection call, the dispatcher performs the detection
call, and the source code used in the translation call is the fallback
"en" whenever the detection response reports an unsupported language pair
or its detected-language field is absent or empty (falsy); otherwise it is
the detected language from the response metadata. -/
theorem detection_source_resolution (cfg : Config) (env : ProviderEnv)
    (body : RequestBody) (d : MyMemoryResponse)
    (ht : fieldTruthy body.text = true) (htg : fieldTruthy body.target = true)
    (hsrc : body.source = none) (hd : env.detect = FetchResult.ok d) :
    (∃ q, ProviderCall.detect q ∈ (translateHandler cfg env body).2) ∧
    (∀ q src tgt, ProviderCall.translate q src tgt ∈ (translateHandler cfg env body).2 →
      src = if reportsUnsupportedPair d then "en"
            else match d.detectedLanguage with
                 | some dl => if dl != "" then dl else "en"
                 | none => "en") := by
  rw [translateHandler_valid cfg env body ht htg]
  have hsf : fieldTruthy body.source = false := by rw [hsrc]; rfl
  obtain ⟨h1, h2⟩ := dispatchWithRefined_detect env body (refineStage cfg env body).1
    (refineStage cfg env body).2 d hsf hd
  constructor
  · exact ⟨(refineStage cfg env body).1, h1⟩
  · intro q src tgt hmem
    rcases h2 q src tgt hmem with hc | hcode
    · rcases refineStage_calls cfg env body with he | he <;> rw [he] at hc
      · exact absurd hc (List.not_mem_nil _)
      · rw [List.mem_singleton] at hc
        exact ProviderCall.noConfusion hc
    · rw [hcode]
      rfl

/-- Witness for C7 (amended) at a concrete sourceless request whose
detection answers "it". -/
theorem detection_source_resolution_witness :
    (∃ q, ProviderCall.detect q ∈
      (translateHandler ⟨none, some "none"⟩
        ⟨GeminiOutcome.throws, FetchResult.ok ⟨none, some "it", none⟩,
          FetchResult.ok ⟨none, none, some "ciao"⟩⟩
        ⟨some (JsVal.str "hola"), some (JsVal.str "English"), none, none⟩).2) ∧
    (∀ q src tgt, ProviderCall.translate q src tgt ∈
        (translateHandler ⟨none, some "none"⟩
          ⟨GeminiOutcome.throws, FetchResult.ok ⟨none, some "it", none⟩,
            FetchResult.ok ⟨none, none, some "ciao"⟩⟩
          ⟨some (JsVal.str "hola"), some (JsVal.str "English"), none, none⟩).2 →
      src = "it") :=
  detection_source_resolution ⟨none, some "none"⟩
    ⟨GeminiOutcome.throws, FetchResult.ok ⟨none, some "it", none⟩,
      FetchResult.ok ⟨none, none, some "ciao"⟩⟩
    ⟨some (JsVal.str "hola"), some (JsVal.str "English"), none, none⟩
    ⟨none, some "it", none⟩ (by decide) (by decide) rfl rfl

/-- Counterexample to C4 as stated: with a credential configured and a
successful Gemini response lacking a first candidate's text, the adapter
returns the trimmed input, which differs from the original input when the
input carries surrounding whitespace. -/
theorem refine_unexpected_shape_counterexample :
    (refineWithGemini ⟨some "key", none⟩
        ⟨GeminiOutcome.ok none, FetchResult.ok ⟨none, none, none⟩,
          FetchResult.ok ⟨none, none, none⟩⟩ " hola" "Spanish").1 = "hola" ∧
    ("hola" : String) ≠ " hola" := by decide

/-- Claim C4 (amended): when the Gemini call succeeds but the response
lacks a first candidate's text content, the adapter falls back to the
original input text passed through the final trim: it returns the input
with leading and trailing whitespace removed, hence the input unchanged
whenever the input has no surrounding whitespace. -/
theorem refine_unexpected_shape_returns_trimmed (cfg : Config) (env : ProviderEnv)
    (text language : String)
    (hk : cfg.geminiKeyTruthy = true) (hg : env.gemini = GeminiOutcome.ok none) :
    refineWithGemini cfg env text language =
      (jsTrim text, [ProviderCall.gemini text language]) := by
  unfold refineWithGemini
  rw [if_neg (show ¬(!cfg.geminiKeyTruthy) = true by rw [hk]; decide), hg]

/-- Witness for C4 (amended) at a concrete whitespace-free input, where
the fallback returns the input unchanged. -/
theorem refine_unexpected_shape_returns_trimmed_witness :
    refineWithGemini ⟨some "key", none⟩
        ⟨GeminiOutcome.ok none, FetchResult.ok ⟨none, none, none⟩,
          FetchResult.ok ⟨none, none, none⟩⟩ "hola" "Spanish" =
      (jsTrim "hola", [ProviderCall.gemini "hola" "Spanish"]) :=
  refine_unexpected_shape_returns_trimmed _ _ _ _ rfl rfl

end DentalRelay

section Sanity

open DentalRelay

example :
    translateHandler ⟨some "k", none⟩
      ⟨GeminiOutcome.ok (some "Hola."), FetchResult.ok ⟨none, some "es", none⟩,
        FetchResult.ok ⟨none, none, some "hello"⟩⟩
      ⟨some (JsVal.str "hola"), some (JsVal.str "English"), none, none⟩ =
    (⟨200, ResponseBody.translationBody "hello"⟩,
      [ProviderCall.gemini "hola" "English", ProviderCall.detect "Hola.",
       ProviderCall.translate "Hola." "es" "en"]) := by
  decide

example :
    translateHandler ⟨some "k", none⟩
      ⟨GeminiOutcome.ok (some "Hola."), FetchResult.ok ⟨none, some "es", none⟩,
        FetchResult.ok ⟨none, none, some "hello"⟩⟩
      ⟨some (JsVal.str "hola"), none, none, none⟩ =
    (⟨400, ResponseBody.errorBody "Missing text or target"⟩, []) := by
  decide

example :
    translateHandler ⟨some "k", none⟩
      ⟨GeminiOutcome.ok (some "Hola."), FetchResult.ok ⟨none, some "es", none⟩,
        FetchResult.ok ⟨none, none, some "hello"⟩⟩
      ⟨some (JsVal.str "hola"), some (JsVal.str "English"), some (JsVal.str "Spanish"),
        some (JsVal.boolean false)⟩ =
    (⟨200, ResponseBody.translationBody "hello"⟩,
      [ProviderCall.translate "hola" "es" "en"]) := by
  decide

end Sanity
